import Mathlib

/-!
Verification development for the JNI binding generator
(src/base/android/jni_generator/jni_generator.py).

Python strings are embedded as `List Char` (named `Str`); Python's string
methods are embedded as executable Lean functions below.  Stateful class
attributes of `JniParams` become an explicit, immutable `JniCtx` value.
Fallible code (Python `raise` / failed `assert` / `sys.exit`) is embedded
with `Except JniError`.  The regular-expression scanning layer of the
source is taken as input: each embedded extraction function receives the
captured groups of the source's regex matches and performs the per-match
processing that the source performs on those groups.
-/

/-- Python strings, embedded as lists of characters. -/
abbrev Str := List Char

deriving instance DecidableEq for Except

/-- Python `s.endswith(t)` on our string embedding. -/
def endswith (s t : Str) : Bool := List.isSuffixOf t s

/-- Python `s.startswith(t)` on our string embedding. -/
def startswith (s t : Str) : Bool := List.isPrefixOf t s

/-- Python `t in s` (substring containment). -/
def hasSubstr (t : Str) : Str → Bool
  | [] => List.isPrefixOf t []
  | c :: rest => List.isPrefixOf t (c :: rest) || hasSubstr t rest

/-- Python `s.split(c)` for a single-character separator: split at every
occurrence, keeping empty segments (`''.split(c) == ['']`). -/
def splitOnChar (c : Char) : Str → List Str
  | [] => [[]]
  | a :: rest =>
    if a == c then [] :: splitOnChar c rest
    else
      match splitOnChar c rest with
      | [] => [[a]]
      | s :: ss => (a :: s) :: ss

/-- Python `s.replace(a, b)` for a single-character pattern and
single-character replacement (e.g. `.replace('.', '/')`). -/
def replaceChar (a b : Char) (s : Str) : Str :=
  s.map (fun c => if c == a then b else c)

/-- Fuel-bounded worker for `pyReplace`; fuel `s.length` always suffices
because every step consumes at least one character. -/
def pyReplaceAux (pat repl : Str) : Nat → Str → Str
  | _, [] => []
  | 0, s => s
  | Nat.succ n, c :: rest =>
    if !pat.isEmpty && List.isPrefixOf pat (c :: rest) then
      repl ++ pyReplaceAux pat repl n (List.drop (pat.length - 1) rest)
    else c :: pyReplaceAux pat repl n rest

/-- Python `s.replace(pat, repl)` for a non-empty pattern: leftmost,
non-overlapping replacement of every occurrence. -/
def pyReplace (pat repl s : Str) : Str := pyReplaceAux pat repl s.length s

/-- Python `s.strip()`: remove leading and trailing whitespace. -/
def stripWS (s : Str) : Str :=
  ((s.dropWhile Char.isWhitespace).reverse.dropWhile Char.isWhitespace).reverse

/-- One character of the class `[0-9a-zA-Z_]` used by the mangler's
`re.match(r'[0-9a-zA-Z_]+', ...)` check. -/
def isIdentChar (c : Char) : Bool :=
  c.isDigit || c.isUpper || c.isLower || c == '_'

/-- Python `re.match(r'[0-9a-zA-Z_]+', s)` is truthy: the pattern is
unanchored at the end, so a match exists exactly when the FIRST character
of `s` is in the class (one repetition suffices). -/
def reMatchIdent (s : Str) : Bool :=
  match s with
  | [] => false
  | c :: _ => isIdentChar c

/-- The ways the generator aborts: `SyntaxError` / `RuntimeError` raised by
resolution and extraction, `ParseError` raised by `ExtractCalledByNatives`,
and a failed Python `assert`. -/
inductive JniError where
  | syntaxError (msg : Str)
  | runtimeError (msg : Str)
  | parseError (description : Str) (contextLines : List Str)
  | assertionError
  deriving DecidableEq

/-- A method parameter (class `Param`): the syntactic Java type and the
declared name. -/
structure PyParam where
  datatype : Str
  name : Str
  deriving DecidableEq

/-- The per-file resolution state of class `JniParams` (its class
attributes `_imports`, `_fully_qualified_class`, `_package`,
`_inner_classes`, `_implicit_imports`), made an explicit immutable value.
`implicitImports` holds the lines of the `android_jar.classes` table that
`_CheckImplicitImports` reads (a data file shipped next to the script). -/
structure JniCtx where
  imports : List Str
  fullyQualifiedClass : Str
  package : Str
  innerClasses : List Str
  implicitImports : List Str
  deriving DecidableEq

/-- `JniParams.SetFullyQualifiedClass`: store `'L' + fully_qualified_class`
and the package path (all `/`-segments but the last), with the other
per-file state empty for a fresh invocation. -/
def SetFullyQualifiedClass (implicits : List Str) (fullyQualifiedClass : Str) : JniCtx :=
  { imports := []
    fullyQualifiedClass := 'L' :: fullyQualifiedClass
    package := List.intercalate ['/'] (splitOnChar '/' fullyQualifiedClass).dropLast
    innerClasses := []
    implicitImports := implicits }

/-- The `pod_param_map` of `JniParams.JavaToJni`. -/
def podParamMap (param : Str) : Option Char :=
  if param == "int".data then some 'I'
  else if param == "boolean".data then some 'Z'
  else if param == "char".data then some 'C'
  else if param == "short".data then some 'S'
  else if param == "long".data then some 'J'
  else if param == "double".data then some 'D'
  else if param == "float".data then some 'F'
  else if param == "byte".data then some 'B'
  else if param == "void".data then some 'V'
  else none

/-- The `object_param_list` of `JniParams.JavaToJni`. -/
def objectParamList : List Str :=
  [ "Ljava/lang/Boolean".data
  , "Ljava/lang/Integer".data
  , "Ljava/lang/Long".data
  , "Ljava/lang/Object".data
  , "Ljava/lang/String".data
  , "Ljava/lang/Class".data
  , "Ljava/lang/CharSequence".data
  , "Ljava/lang/Runnable".data
  , "Ljava/lang/Throwable".data ]

/-- Counts how many trailing `[]` pairs the loop
`while param[-2:] == '[]': ...` strips, phrased over the reversed string
so that the recursion is structural. -/
def arrayDepthRev : Str → Nat
  | [] => 0
  | [_] => 0
  | a :: b :: rest => if a = ']' ∧ b = '[' then arrayDepthRev rest + 1 else 0

/-- The array-stripping loop of `JavaToJni`: returns the `[` prefix built
by the loop together with the remaining type name. -/
def stripArrays (s : Str) : Str × Str :=
  let n := arrayDepthRev s.reverse
  (List.replicate n '[', s.take (s.length - 2 * n))

/-- The generic-stripping step of `JavaToJni`:
`if '<' in param: param = param[:param.index('<')]`. -/
def stripGeneric (s : Str) : Str :=
  if s.contains '<' then s.takeWhile (fun c => c != '<') else s

/-- The match test of the loop over
`object_param_list + [_fully_qualified_class] + _inner_classes`. -/
def qualifiedMatches (param q : Str) : Bool :=
  endswith q ('/' :: param) ||
  endswith q ('$' :: replaceChar '.' '$' param) ||
  q == 'L' :: param

/-- The inner-class test applied to a matching explicit import:
`components = qualified_name.split('/')`,
`len(components) > 2 and components[-2][0].isupper()`. -/
def innerShapedImport (q : Str) : Bool :=
  let components := splitOnChar '/' q
  components.length > 2 &&
    (match components.reverse with
     | _ :: p :: _ => (p.headD (Char.ofNat 0)).isUpper
     | _ => false)

/-- `implicit_import.strip().replace('.class', '').replace('/', '.')`. -/
def cleanImplicit (entry : Str) : Str :=
  replaceChar '/' '.' (pyReplace ".class".data [] (stripWS entry))

/-- The loop of `JniParams._CheckImplicitImports`: the first table line
whose cleaned form ends with `'.' + param`, if any (the loop raises at the
first match). -/
def checkImplicit (implicits : List Str) (param : Str) : Option Str :=
  implicits.find? (fun ii => endswith (cleanImplicit ii) ('.' :: param))

/-- Message of the inner-class-import `SyntaxError` in `JavaToJni`. -/
def innerImportMsg (q param : Str) : Str :=
  "Inner class (".data ++ q ++ ") can not be imported and used by JNI (".data ++
    param ++ "). Please import the outer class and use Outer.Inner instead.".data

/-- Message of the dotted-name `SyntaxError` in `JavaToJni`. -/
def dottedMsg (param package outer : Str) : Str :=
  "Inner class (".data ++ param ++
    ") can not be used directly by JNI. Please import the outer class, probably: import ".data ++
    replaceChar '/' '.' package ++ ".".data ++ replaceChar '/' '.' outer ++ ";".data

/-- Message of the ambiguity `SyntaxError` in `_CheckImplicitImports`. -/
def ambiguousMsg (param implicitImport : Str) : Str :=
  "Ambiguous class (".data ++ param ++
    ") can not be used directly by JNI. Please import it, probably: import ".data ++
    implicitImport ++ ";".data

/-- Body of `JniParams.JavaToJni` after the array/generic stripping: the
strict priority chain of the resolver (primitives, slash-qualified names,
well-known types / own class / inner classes, explicit imports with the
inner-import rejection, dotted outer-import form, implicit-import
ambiguity guard, same-package fallback). -/
def javaToJniCore (ctx : JniCtx) (pre param : Str) : Except JniError Str :=
  match podParamMap param with
  | some c => .ok (pre ++ [c])
  | none =>
    if param.contains '/' then .ok (pre ++ 'L' :: (param ++ [';']))
    else
      match (objectParamList ++ ctx.fullyQualifiedClass :: ctx.innerClasses).find?
          (qualifiedMatches param) with
      | some q => .ok (pre ++ q ++ [';'])
      | none =>
        match ctx.imports.find? (fun q => endswith q ('/' :: param)) with
        | some q =>
          if innerShapedImport q then .error (.syntaxError (innerImportMsg q param))
          else .ok (pre ++ q ++ [';'])
        | none =>
          if param.contains '.' then
            let components := splitOnChar '.' param
            let outer := List.intercalate ['/'] components.dropLast
            let inner := components.getLastD []
            match ctx.imports.find? (fun q => endswith q ('/' :: outer)) with
            | some q => .ok (pre ++ q ++ '$' :: (inner ++ [';']))
            | none => .error (.syntaxError (dottedMsg param ctx.package outer))
          else
            match checkImplicit ctx.implicitImports param with
            | some ii => .error (.syntaxError (ambiguousMsg param (cleanImplicit ii)))
            | none => .ok (pre ++ 'L' :: (ctx.package ++ '/' :: (param ++ [';'])))

/-- `JniParams.JavaToJni`: convert a syntactic Java type into a JNI
descriptor under the per-file context, or fail with the `SyntaxError` the
source raises. -/
def JavaToJni (ctx : JniCtx) (param : Str) : Except JniError Str :=
  let pr := stripArrays param
  javaToJniCore ctx pr.1 (stripGeneric pr.2)

example : JavaToJni (SetFullyQualifiedClass [] "org/chromium/Foo".data) "int".data =
    .ok "I".data := by decide
example : JavaToJni (SetFullyQualifiedClass [] "org/chromium/Foo".data) "String[]".data =
    .ok "[Ljava/lang/String;".data := by decide
example : JavaToJni (SetFullyQualifiedClass [] "org/chromium/Foo".data) "Bar".data =
    .ok "Lorg/chromium/Bar;".data := by decide

/-- `JniParams.Signature`: the JNI signature string for a parameter list
and return type; `wrap` chooses the multi-line quoted form. -/
def Signature (ctx : JniCtx) (params : List PyParam) (returns : Str) (wrap : Bool) :
    Except JniError Str := do
  let paramItems ← params.mapM (fun p => JavaToJni ctx p.datatype)
  let retItem ← JavaToJni ctx returns
  let items := "(".data :: paramItems ++ [")".data, retItem]
  if wrap then
    return '\n' :: List.intercalate ['\n'] (items.map (fun i => '"' :: (i ++ ['"'])))
  else
    return '"' :: (items.flatten ++ ['"'])

/-- `JniParams.Parse`: parse a raw parameter-list string into `Param`
values — split on commas, strip, drop leading `@Annotations`, remove a
`final` token, take the first token as the type and the second (when
present) as the name, defaulting the name to `p<index>`. -/
def Parse (params : Str) : List PyParam :=
  if params.isEmpty then []
  else
    ((splitOnChar ',' params).enum.map (fun pair =>
      let items := splitOnChar ' ' (stripWS pair.2)
      let items := items.dropWhile (fun it => startswith it "@".data)
      let items := if items.contains "final".data then items.erase "final".data else items
      { datatype := items.headD []
        name := items.getD 1 ('p' :: (Nat.repr pair.1).data) : PyParam }))

/-- The dispatch kinds a `NativeMethod` is classified into:
`self.type = 'method'` (instance bound to a native peer object) or
`self.type = 'function'` (free function). -/
inductive NativeType where
  | method
  | function
  deriving DecidableEq

/-- The typed model of one extracted native declaration
(class `NativeMethod`). -/
structure NativeMethod where
  static : Bool
  javaClassName : Option Str
  returnType : Str
  name : Str
  params : List PyParam
  type : NativeType
  p0Type : Option Str
  deriving DecidableEq

/-- `NativeMethod.__init__`: classify the declaration — if the first
parameter's type equals the configured pointer type and its name starts
with `native`, the kind is `method` and `p0_type` is the name suffix after
`native`, overridden by a truthy `@NativeClassQualifiedName` value;
otherwise the kind is `function`. -/
def mkNativeMethod (static : Bool) (javaClassName nativeClassName : Option Str)
    (returnType name : Str) (params : List PyParam) (ptrType : Str) : NativeMethod :=
  let base : NativeMethod :=
    { static, javaClassName, returnType, name, params
      type := .function, p0Type := none }
  match params with
  | [] => base
  | p0 :: _ =>
    if p0.datatype == ptrType && startswith p0.name "native".data then
      { base with
        type := .method
        p0Type := some (match nativeClassName with
          | some c => if c.isEmpty then p0.name.drop 6 else c
          | none => p0.name.drop 6) }
    else base

/-- The captured groups of one `re_native` match in `ExtractNatives`. -/
structure NativeMatch where
  qualifiers : Str
  javaClassName : Option Str
  nativeClassName : Option Str
  returnType : Str
  nameGroup : Str
  paramsGroup : Str
  deriving DecidableEq

/-- `ExtractNatives`: build a `NativeMethod` from each regex match; the
stored name is `match.group('name').replace('native', '')` — every
occurrence of the substring `native` is removed, not just the prefix. -/
def ExtractNatives (ms : List NativeMatch) (ptrType : Str) : List NativeMethod :=
  ms.map (fun m =>
    mkNativeMethod (hasSubstr "static".data m.qualifiers) m.javaClassName
      m.nativeClassName m.returnType (pyReplace "native".data [] m.nameGroup)
      (Parse m.paramsGroup) ptrType)

/-- `GetEnvCall`: select the `env->Call...Method` family for a
called-by-native method. -/
def GetEnvCall (isConstructor isStatic : Bool) (returnType : Str) : Str :=
  if isConstructor then "NewObject".data
  else
    let call :=
      if returnType == "boolean".data then "Boolean".data
      else if returnType == "byte".data then "Byte".data
      else if returnType == "char".data then "Char".data
      else if returnType == "short".data then "Short".data
      else if returnType == "int".data then "Int".data
      else if returnType == "long".data then "Long".data
      else if returnType == "float".data then "Float".data
      else if returnType == "void".data then "Void".data
      else if returnType == "double".data then "Double".data
      else "Object".data
    let call := if isStatic then "Static".data ++ call else call
    "Call".data ++ call ++ "Method".data

/-- `GetStaticCastForReturnType`. -/
def GetStaticCastForReturnType (returnType : Str) : Option Str :=
  if returnType == "String".data then some "jstring".data
  else if returnType == "java/lang/String".data then some "jstring".data
  else if returnType == "Throwable".data then some "jthrowable".data
  else if returnType == "java/lang/Throwable".data then some "jthrowable".data
  else if returnType == "boolean[]".data then some "jbooleanArray".data
  else if returnType == "byte[]".data then some "jbyteArray".data
  else if returnType == "char[]".data then some "jcharArray".data
  else if returnType == "short[]".data then some "jshortArray".data
  else if returnType == "int[]".data then some "jintArray".data
  else if returnType == "long[]".data then some "jlongArray".data
  else if returnType == "float[]".data then some "jfloatArray".data
  else if returnType == "double[]".data then some "jdoubleArray".data
  else if endswith returnType "[]".data then some "jobjectArray".data
  else none

/-- The typed model of one called-by-native declaration
(class `CalledByNative`). -/
structure CalledByNative where
  systemClass : Bool
  unchecked : Bool
  static : Bool
  javaClassName : Str
  returnType : Str
  name : Str
  params : List PyParam
  methodIdVarName : Option Str
  signature : Option Str
  isConstructor : Bool
  envCall : Str
  staticCast : Option Str
  deriving DecidableEq

/-- `CalledByNative.__init__` (the derived `env_call` / `static_cast`
fields are computed as in the source). -/
def mkCalledByNative (systemClass unchecked static : Bool) (javaClassName returnType name : Str)
    (params : List PyParam) (signature : Option Str) (isConstructor : Bool) : CalledByNative :=
  { systemClass, unchecked, static, javaClassName, returnType, name, params
    methodIdVarName := none
    signature
    isConstructor
    envCall := GetEnvCall isConstructor static returnType
    staticCast := GetStaticCastForReturnType returnType }


/-- `GetMangledParam`: a descriptor of length at most 2 is used verbatim
with `[` turned into `A`; a longer descriptor keeps, from position 1 on,
every `[` (as `A`) and the uppercased form of every character that is
uppercase or directly follows a `/` or an `L`. -/
def GetMangledParam (datatype : Str) : Str :=
  if datatype.length ≤ 2 then replaceChar '[' 'A' datatype
  else
    (datatype.zip datatype.tail).foldl
      (fun ret pc =>
        if pc.2 == '[' then ret ++ ['A']
        else if pc.2.isUpper || pc.1 == '/' || pc.1 == 'L' then ret ++ [pc.2.toUpper]
        else ret)
      []

/-- `GetMangledMethodName`: concatenate the method name with the mangled
tokens of the resolved return-type and parameter descriptors, joined by
`_`; the final `assert re.match(r'[0-9a-zA-Z_]+', mangled_name)` is
embedded exactly as written — an unanchored match, true whenever the
first character is in the class. -/
def GetMangledMethodName (ctx : JniCtx) (name : Str) (params : List PyParam)
    (returnType : Str) : Except JniError Str := do
  let descriptors ← (returnType :: params.map (fun p => p.datatype)).mapM (JavaToJni ctx)
  let mangledName := name ++ List.intercalate ['_'] (descriptors.map GetMangledParam)
  if reMatchIdent mangledName then return mangledName
  else .error .assertionError

/-- The per-`(java_class_name, name)` group size used by
`MangleCalledByNatives`. -/
def methodCount (l : List CalledByNative) (javaClassName name : Str) : Nat :=
  (l.filter (fun c => c.javaClassName == javaClassName && c.name == name)).length

/-- `MangleCalledByNatives`: a method whose `(enclosing class, name)`
group has one member keeps its plain name as `method_id_var_name`; members
of larger groups get `GetMangledMethodName`. -/
def MangleCalledByNatives (ctx : JniCtx) (l : List CalledByNative) :
    Except JniError (List CalledByNative) :=
  l.mapM (fun c =>
    if methodCount l c.javaClassName c.name > 1 then
      (GetMangledMethodName ctx c.name c.params c.returnType).map
        (fun id => { c with methodIdVarName := some id })
    else pure { c with methodIdVarName := some c.name })

/-- The captured groups of one `RE_CALLED_BY_NATIVE` match. -/
structure CBNMatch where
  uncheckedGroup : Str
  annotation : Option Str
  prefixGroup : Str
  returnType : Str
  name : Str
  paramsGroup : Str
  deriving DecidableEq

/-- The per-match construction of `ExtractCalledByNatives`. -/
def mkCBNFromMatch (m : CBNMatch) : CalledByNative :=
  mkCalledByNative false (hasSubstr "Unchecked".data m.uncheckedGroup)
    (hasSubstr "static".data m.prefixGroup)
    (match m.annotation with
     | some a => if a.isEmpty then [] else a
     | none => [])
    m.returnType m.name (Parse m.paramsGroup) none false

/-- `ExtractCalledByNatives`: build the `CalledByNative` list from the
regex matches; if some occurrence of `@CalledByNative` in the file failed
to match the declaration shape, raise `ParseError` with the two offending
lines; finally run the overload mangler. -/
def ExtractCalledByNatives (ctx : JniCtx) (ms : List CBNMatch)
    (unmatchedLines : Option (Str × Str)) : Except JniError (List CalledByNative) :=
  match unmatchedLines with
  | some lines =>
    .error (.parseError "could not parse @CalledByNative method signature".data
      [lines.1, lines.2])
  | none => MangleCalledByNatives ctx (ms.map mkCBNFromMatch)

/-- `JniParams.AddAdditionalImport`: a `@JNIAdditionalImport` entry must
end in `.class`, must be an unqualified (dot-free) outer-class name, and
must not already be imported; it is then imported from the current
package. -/
def AddAdditionalImport (ctx : JniCtx) (className : Str) : Except JniError JniCtx :=
  if !endswith className ".class".data then .error .assertionError
  else
    let rawClassName := className.take (className.length - 6)
    if rawClassName.contains '.' then
      .error (.syntaxError (className ++
        " cannot be used in @JNIAdditionalImport. Only import unqualified outer classes.".data))
    else
      let newImport := 'L' :: (ctx.package ++ '/' :: rawClassName)
      if ctx.imports.contains newImport then
        .error (.syntaxError ("Do not use JNIAdditionalImport on an already imported class: ".data
          ++ replaceChar '/' '.' newImport))
      else .ok { ctx with imports := ctx.imports ++ [newImport] }

/-- The structured form of one input file, as captured by the regex layer
of the source: the groups of each `finditer` pass, in file order. -/
structure SourceModel where
  importNames : List Str
  innerNames : List Str
  additionalImportNames : List Str
  jniNamespace : Str
  nativeMatches : List NativeMatch
  cbnMatches : List CBNMatch
  unmatchedCBNLines : Option (Str × Str)
  deriving DecidableEq

/-- `JniParams.ExtractImportsAndInnerClasses`: require the package to be
set, record each `import` as `L` plus the slash form of the imported name
(no validity check of any kind is applied here), record each nested
`class`/`interface` name that is not a suffix of the file's own class as
an inner class, then process every `@JNIAdditionalImport` entry. -/
def ExtractImportsAndInnerClasses (ctx : JniCtx) (src : SourceModel) :
    Except JniError JniCtx :=
  if ctx.package.isEmpty then
    .error (.runtimeError
      "SetFullyQualifiedClass must be called before ExtractImportsAndInnerClasses".data)
  else
    let ctx := { ctx with
      imports := ctx.imports ++
        src.importNames.map (fun c => 'L' :: replaceChar '.' '/' c) }
    let ctx := { ctx with
      innerClasses := ctx.innerClasses ++
        (src.innerNames.filter
          (fun n => !endswith ctx.fullyQualifiedClass n)).map
          (fun n => ctx.fullyQualifiedClass ++ '$' :: n) }
    src.additionalImportNames.foldlM (fun c n => AddAdditionalImport c (stripWS n)) ctx

/-- A Python `dict` keyed by strings, embedded as an association list:
assignment to an existing key updates it in place, assignment to a new key
appends it (only the key set, not the iteration order, matters for the
properties below). -/
abbrev Dict := List (Str × Str)

/-- `d[k] = v` on the dict embedding. -/
def dictPut (d : Dict) (k v : Str) : Dict :=
  match d with
  | [] => [(k, v)]
  | (k', v') :: rest => if k' = k then (k', v) :: rest else (k', v') :: dictPut rest k v

/-- `d.update(other)` on the dict embedding. -/
def dictUpdate (d other : Dict) : Dict :=
  other.foldl (fun acc kv => dictPut acc kv.1 kv.2) d

/-- The key list of a dict. -/
def dictKeys (d : Dict) : List Str := d.map Prod.fst

/-- Truthiness of a `java_class_name` attribute: `None` and `''` are
falsy. -/
def truthyName : Option Str → Bool
  | none => false
  | some s => !s.isEmpty

/-- The name/path pair `InlHeaderFileGenerator.GetUniqueClasses` stores
for one entry of `origin`. -/
def uniqueClassEntry (className fullyQualifiedClass : Str) (jcn : Option Str) : Str × Str :=
  match jcn with
  | some c =>
    if c.isEmpty then (className, fullyQualifiedClass)
    else (c, fullyQualifiedClass ++ '$' :: c)
  | none => (className, fullyQualifiedClass)

/-- `InlHeaderFileGenerator.GetUniqueClasses`: a dict seeded with the
file's own class and updated once per entry of `origin` (an entry with a
truthy `java_class_name` contributes that inner class). -/
def GetUniqueClasses (className fullyQualifiedClass : Str) (origin : List (Option Str)) : Dict :=
  origin.foldl
    (fun d jcn =>
      let e := uniqueClassEntry className fullyQualifiedClass jcn
      dictPut d e.1 e.2)
    [(className, fullyQualifiedClass)]

/-- The model of `InlHeaderFileGenerator`: the fields its constructor
stores. `constantFields` and the namespace do not matter for the claims
but are carried for completeness. -/
structure Generator where
  namespaceUsed : Str
  fullyQualifiedClass : Str
  className : Str
  natives : List NativeMethod
  calledByNatives : List CalledByNative
  constantFields : List (Str × Str)
  nativeExportsOptional : Bool
  deriving DecidableEq

/-- The dict `all_classes` computed by
`InlHeaderFileGenerator.GetClassPathDefinitions`: the unique classes of
the called-by-native declarations, updated with those of the native
declarations when `native_exports_optional` is set. -/
def classPathAllClasses (g : Generator) : Dict :=
  let base := GetUniqueClasses g.className g.fullyQualifiedClass
    (g.calledByNatives.map (fun c => some c.javaClassName))
  if g.nativeExportsOptional then
    dictUpdate base (GetUniqueClasses g.className g.fullyQualifiedClass
      (g.natives.map (fun n => n.javaClassName)))
  else base

/-- The class-path string constants emitted by `GetClassPathDefinitions`:
one `const char k<Class>ClassPath[]` definition per dict entry, in
iteration order. -/
def classPathConstants (g : Generator) : List (Str × Str) :=
  classPathAllClasses g

/-- The lazily-initialized cached class handles emitted by
`GetClassPathDefinitions`: one `g_<Class>_clazz` cell and
`<Class>_clazz(env)` accessor per dict key, in iteration order. -/
def classHandles (g : Generator) : List Str :=
  dictKeys (classPathAllClasses g)

/-- `InlHeaderFileGenerator.GetStubName`: `Java_` plus the escaped fully
qualified class name (`_` becomes `_1`, `/` becomes `_`, a per-call inner
class is appended after `_00024`) plus `_native` plus the stored method
name. -/
def GetStubName (fullyQualifiedClass : Str) (native : NativeMethod) : Str :=
  let javaName := replaceChar '/' '_' (pyReplace "_".data "_1".data fullyQualifiedClass)
  let javaName := match native.javaClassName with
    | some c => if c.isEmpty then javaName else javaName ++ "_00024".data ++ c
    | none => javaName
  "Java_".data ++ javaName ++ "_native".data ++ native.name

/-- The signature used by `InlHeaderFileGenerator.GetMethodIDImpl` for one
called-by-native method: the verbatim decompiled signature when present,
otherwise the signature computed by the resolver (with return type `void`
and lookup name `<init>` for constructors). -/
def methodIDSignature (ctx : JniCtx) (c : CalledByNative) : Except JniError Str :=
  let jniReturnType := if c.isConstructor then "void".data else c.returnType
  match c.signature with
  | some s => .ok s
  | none => Signature ctx c.params jniReturnType true

/-- The model of `InlHeaderFileGenerator.GetContent`: compute every
section that involves resolution or naming, in the source's order, and
concatenate.  The literal C++ template text around the computed pieces is
elided; what matters here is which pieces are emitted, once per which
entity, and that any resolution failure inside a section aborts content
construction (in the source, the `SyntaxError` escapes `GetContent`). -/
def GetContent (ctx : JniCtx) (g : Generator) : Except JniError Str := do
  let classSection :=
    List.intercalate ['\n']
      ((classPathConstants g).map (fun kv => kv.1 ++ '=' :: kv.2) ++ classHandles g)
  let stubNames := g.natives.map (GetStubName g.fullyQualifiedClass)
  let kMethodSignatures ←
    if g.nativeExportsOptional then
      g.natives.mapM (fun n => Signature ctx n.params n.returnType true)
    else pure []
  let methodIdSignatures ← g.calledByNatives.mapM (methodIDSignature ctx)
  return List.intercalate ['\n']
    (classSection :: stubNames ++ kMethodSignatures ++ methodIdSignatures)

/-- The options of one invocation that the modelled pipeline consumes. -/
structure Options where
  ptrType : Str
  namespaceOpt : Str
  nativeExportsOptional : Bool
  optimizeGeneration : Bool
  deriving DecidableEq

/-- The message of the `SyntaxError` raised by `JNIFromJavaSource.__init__`
when no JNI method was found. -/
def noMethodsMsg (fullyQualifiedClass : Str) : Str :=
  "Unable to find any JNI methods for ".data ++ fullyQualifiedClass ++ ".".data

/-- `JNIFromJavaSource.__init__`: build the resolution context, extract
natives and called-by-natives, fail when both are absent, and otherwise
produce the generated header content. -/
def JNIFromJavaSource (implicits : List Str) (fullyQualifiedClass : Str)
    (src : SourceModel) (options : Options) : Except JniError Str := do
  let ctx0 := SetFullyQualifiedClass implicits fullyQualifiedClass
  let ctx ← ExtractImportsAndInnerClasses ctx0 src
  let jniNamespace :=
    if src.jniNamespace.isEmpty then options.namespaceOpt else src.jniNamespace
  let natives := ExtractNatives src.nativeMatches options.ptrType
  let calledByNatives ← ExtractCalledByNatives ctx src.cbnMatches src.unmatchedCBNLines
  if natives.isEmpty && calledByNatives.isEmpty then
    .error (.syntaxError (noMethodsMsg fullyQualifiedClass))
  else
    GetContent ctx
      { namespaceUsed := jniNamespace
        fullyQualifiedClass
        className := (splitOnChar '/' fullyQualifiedClass).getLastD []
        natives
        calledByNatives
        constantFields := []
        nativeExportsOptional := options.nativeExportsOptional }

/-- The file system visible to `GenerateJNIHeader`: path/content pairs. -/
abbrev FileSystem := List (Str × Str)

/-- `GenerateJNIHeader`: the content computation runs first and in full;
a `ParseError` is caught and turns into `sys.exit(1)`, every other
extraction/resolution error (`SyntaxError`, `RuntimeError`,
`AssertionError`) escapes uncaught and terminates the interpreter with
status 1 — in both cases before any output path is opened.  On success
the content is written to the output file, except that under
`optimize_generation` a byte-identical existing file is left untouched. -/
def GenerateJNIHeader (contentResult : Except JniError Str) (outputFile : Option Str)
    (optimizeGeneration : Bool) (fs : FileSystem) : FileSystem × Nat :=
  match contentResult with
  | .error _ => (fs, 1)
  | .ok content =>
    match outputFile with
    | none => (fs, 0)
    | some f =>
      if optimizeGeneration &&
          ((fs.find? (fun e => e.1 == f)).map Prod.snd == some content) then
        (fs, 0)
      else (dictPut fs f content, 0)

/-! Supporting lemmas. -/

theorem arrayDepthRev_nil : arrayDepthRev [] = 0 := rfl

theorem arrayDepthRev_eq_zero (l : Str) (h : List.isPrefixOf [']', '['] l = false) :
    arrayDepthRev l = 0 := by
  match l with
  | [] => rfl
  | [c] =>
    rcases c with ⟨n, hn⟩
    simp [arrayDepthRev]
  | a :: b :: rest =>
    have ha : ¬(a = ']' ∧ b = '[') := by
      rintro ⟨rfl, rfl⟩
      simp [List.isPrefixOf] at h
    simp [arrayDepthRev, ha]

theorem stripArrays_eq_self (s : Str) (h : List.isSuffixOf "[]".data s = false) :
    stripArrays s = ([], s) := by
  have h2 : arrayDepthRev s.reverse = 0 := by
    apply arrayDepthRev_eq_zero
    simpa [List.isSuffixOf] using h
  simp [stripArrays, h2]

theorem stripArrays_append_gt (l : Str) :
    stripArrays (l ++ ['>']) = ([], l ++ ['>']) := by
  apply stripArrays_eq_self
  simp [List.isSuffixOf, List.isPrefixOf]

theorem stripGeneric_eq_self (s : Str) (h : s.contains '<' = false) :
    stripGeneric s = s := by
  unfold stripGeneric
  rw [h]
  rfl

theorem takeWhile_append_not_lt (T u : Str) (h : T.contains '<' = false) :
    (T ++ '<' :: u).takeWhile (fun c => c != '<') = T := by
  induction T with
  | nil => simp
  | cons a t ih =>
    have h' := h
    simp only [List.contains_cons, Bool.or_eq_false_iff] at h'
    have hne : a ≠ '<' := by
      intro e
      subst e
      simp at h'
    simp [List.takeWhile_cons, hne, ih h'.2]

theorem stripGeneric_append (T u : Str) (h : T.contains '<' = false) :
    stripGeneric (T ++ '<' :: u) = T := by
  have hc : (T ++ '<' :: u).contains '<' = true := by simp
  unfold stripGeneric
  rw [hc]
  simp only [if_true]
  exact takeWhile_append_not_lt T u h

theorem hasSubstr_of_isPrefixOf (t s : Str) (h : List.isPrefixOf t s = true) :
    hasSubstr t s = true := by
  cases s with
  | nil => simpa [hasSubstr] using h
  | cons c rest => simp [hasSubstr, h]

theorem hasSubstr_append_mid (t u v : Str) : hasSubstr t (u ++ t ++ v) = true := by
  induction u with
  | nil =>
    apply hasSubstr_of_isPrefixOf
    simp
  | cons a u ih =>
    rw [show (a :: u) ++ t ++ v = a :: (u ++ t ++ v) from rfl]
    rw [hasSubstr]
    rw [ih]
    simp

theorem replaceChar_append (a b : Char) (u v : Str) :
    replaceChar a b (u ++ v) = replaceChar a b u ++ replaceChar a b v := by
  simp [replaceChar]

theorem replaceChar_eq_self (a b : Char) (s : Str) (h : s.contains a = false) :
    replaceChar a b s = s := by
  induction s with
  | nil => rfl
  | cons c rest ih =>
    have h' := h
    simp only [List.contains_cons, Bool.or_eq_false_iff] at h'
    have hne : (c == a) = false := by
      have h1 := h'.1
      rw [beq_eq_false_iff_ne] at h1 ⊢
      exact fun e => h1 e.symm
    have ht := ih h'.2
    simp only [replaceChar, List.map_cons] at ht ⊢
    rw [hne]
    simp only [Bool.false_eq_true, if_false, List.cons.injEq, true_and]
    exact ht

theorem endswith_decomp (s t : Str) (h : endswith s t = true) : ∃ u, s = u ++ t := by
  have hs : t <:+ s := by simpa [endswith] using h
  obtain ⟨u, hu⟩ := hs
  exact ⟨u, hu.symm⟩

theorem endswith_append (u t : Str) : endswith (u ++ t) t = true := by
  simp [endswith]

theorem dictKeys_dictPut (d : Dict) (k v : Str) :
    dictKeys (dictPut d k v) = if k ∈ dictKeys d then dictKeys d else dictKeys d ++ [k] := by
  induction d with
  | nil => simp [dictPut, dictKeys]
  | cons e rest ih =>
    by_cases he : e.1 = k
    · subst he
      simp [dictPut, dictKeys]
    · simp only [dictPut, if_neg he, dictKeys, List.map_cons] at ih ⊢
      rw [ih]
      have : (k ∈ e.1 :: List.map Prod.fst rest) ↔ (k ∈ List.map Prod.fst rest) := by
        simp [List.mem_cons]
        intro e'
        exact absurd e'.symm he
      by_cases hm : k ∈ List.map Prod.fst rest
      · simp [hm, this]
      · simp [hm, this]

theorem mem_dictKeys_dictPut_self (d : Dict) (k v : Str) : k ∈ dictKeys (dictPut d k v) := by
  rw [dictKeys_dictPut]
  by_cases hm : k ∈ dictKeys d
  · simp [hm]
  · simp [hm]

theorem mem_dictKeys_dictPut_of_mem (d : Dict) (k v k' : Str) (h : k' ∈ dictKeys d) :
    k' ∈ dictKeys (dictPut d k v) := by
  rw [dictKeys_dictPut]
  by_cases hm : k ∈ dictKeys d
  · simpa [hm]
  · simp [hm, h]

theorem nodup_dictKeys_dictPut (d : Dict) (k v : Str) (h : (dictKeys d).Nodup) :
    (dictKeys (dictPut d k v)).Nodup := by
  rw [dictKeys_dictPut]
  by_cases hm : k ∈ dictKeys d
  · simpa [hm]
  · simp only [hm, if_false]
    simpa [List.nodup_append, hm] using h

theorem nodup_dictKeys_foldl {α : Type} (key val : α → Str) (l : List α) (d : Dict)
    (h : (dictKeys d).Nodup) :
    (dictKeys (l.foldl (fun acc x => dictPut acc (key x) (val x)) d)).Nodup := by
  induction l generalizing d with
  | nil => simpa using h
  | cons x xs ih => exact ih _ (nodup_dictKeys_dictPut _ _ _ h)

theorem mem_dictKeys_foldl_of_mem {α : Type} (key val : α → Str) (l : List α) (d : Dict)
    (k' : Str) (h : k' ∈ dictKeys d) :
    k' ∈ dictKeys (l.foldl (fun acc x => dictPut acc (key x) (val x)) d) := by
  induction l generalizing d with
  | nil => simpa using h
  | cons x xs ih => exact ih _ (mem_dictKeys_dictPut_of_mem _ _ _ _ h)

theorem mem_dictKeys_foldl_of_elem {α : Type} (key val : α → Str) (l : List α) (d : Dict)
    (x : α) (hx : x ∈ l) :
    key x ∈ dictKeys (l.foldl (fun acc y => dictPut acc (key y) (val y)) d) := by
  induction l generalizing d with
  | nil => cases hx
  | cons y ys ih =>
    rcases List.mem_cons.mp hx with h | h
    · subst h
      exact mem_dictKeys_foldl_of_mem key val ys _ _ (mem_dictKeys_dictPut_self _ _ _)
    · exact ih _ h

theorem mem_dictKeys_dictUpdate_right (d other : Dict) (k : Str) (h : k ∈ dictKeys other) :
    k ∈ dictKeys (dictUpdate d other) := by
  induction other generalizing d with
  | nil => cases h
  | cons kv rest ih =>
    simp only [dictKeys, List.map_cons, List.mem_cons] at h
    rcases h with h | h
    · subst h
      exact mem_dictKeys_foldl_of_mem Prod.fst Prod.snd rest _ _
        (mem_dictKeys_dictPut_self _ _ _)
    · exact ih _ h

theorem mem_dictKeys_dictUpdate_left (d other : Dict) (k : Str) (h : k ∈ dictKeys d) :
    k ∈ dictKeys (dictUpdate d other) :=
  mem_dictKeys_foldl_of_mem Prod.fst Prod.snd other d k h

theorem nodup_dictKeys_dictUpdate (d other : Dict) (h : (dictKeys d).Nodup) :
    (dictKeys (dictUpdate d other)).Nodup :=
  nodup_dictKeys_foldl Prod.fst Prod.snd other d h

theorem nodup_dictKeys_GetUniqueClasses (cn fqc : Str) (origin : List (Option Str)) :
    (dictKeys (GetUniqueClasses cn fqc origin)).Nodup := by
  exact nodup_dictKeys_foldl (fun jcn => (uniqueClassEntry cn fqc jcn).1)
    (fun jcn => (uniqueClassEntry cn fqc jcn).2) origin [(cn, fqc)] (by simp [dictKeys])

theorem mem_dictKeys_GetUniqueClasses (cn fqc : Str) (origin : List (Option Str))
    (jcn : Option Str) (h : jcn ∈ origin) :
    (uniqueClassEntry cn fqc jcn).1 ∈ dictKeys (GetUniqueClasses cn fqc origin) := by
  exact mem_dictKeys_foldl_of_elem (fun j => (uniqueClassEntry cn fqc j).1)
    (fun j => (uniqueClassEntry cn fqc j).2) origin [(cn, fqc)] jcn h

/-! The claims. -/

/-- Claim C1: for every resolution context, the type resolver maps `int`
to `I`, `int[]` to `[I`, `boolean` to `Z`, `void` to `V`, `String` to
`Ljava/lang/String;` and `String[]` to `[Ljava/lang/String;`; and for
every type name `T` (one that carries no generic marker and no trailing
array marker of its own) and every generic suffix `<...>`, resolving
`T<...>` yields the same result as resolving `T`. -/
theorem C1_resolver_oracle (ctx : JniCtx) :
    JavaToJni ctx "int".data = .ok "I".data ∧
    JavaToJni ctx "int[]".data = .ok "[I".data ∧
    JavaToJni ctx "boolean".data = .ok "Z".data ∧
    JavaToJni ctx "void".data = .ok "V".data ∧
    JavaToJni ctx "String".data = .ok "Ljava/lang/String;".data ∧
    JavaToJni ctx "String[]".data = .ok "[Ljava/lang/String;".data ∧
    ∀ T s : Str, T.contains '<' = false → List.isSuffixOf "[]".data T = false →
      JavaToJni ctx (T ++ '<' :: (s ++ ['>'])) = JavaToJni ctx T := by
  refine ⟨rfl, rfl, rfl, rfl, rfl, rfl, ?_⟩
  intro T s h1 h2
  have hArr : stripArrays (T ++ '<' :: (s ++ ['>'])) = ([], T ++ '<' :: (s ++ ['>'])) := by
    have h3 := stripArrays_append_gt (T ++ '<' :: s)
    simpa using h3
  have hGen : stripGeneric (T ++ '<' :: (s ++ ['>'])) = T :=
    stripGeneric_append T (s ++ ['>']) h1
  have hArrT : stripArrays T = ([], T) := stripArrays_eq_self T h2
  have hGenT : stripGeneric T = T := stripGeneric_eq_self T h1
  simp only [JavaToJni]
  rw [hArr, hArrT]
  simp only [hGen, hGenT]

/-- Witness for C1 at a concrete context and concrete generic name:
`Foo<Bar>` resolves exactly as `Foo` does. -/
theorem C1_resolver_oracle_witness :
    JavaToJni (SetFullyQualifiedClass [] "org/chromium/Test".data)
        ("Foo".data ++ '<' :: ("Bar".data ++ ['>'])) =
      JavaToJni (SetFullyQualifiedClass [] "org/chromium/Test".data) "Foo".data :=
  (C1_resolver_oracle (SetFullyQualifiedClass [] "org/chromium/Test".data)).2.2.2.2.2.2
    "Foo".data "Bar".data (by decide) (by decide)

/-- Claim C2: a native declaration whose first parameter has the
configured pointer type and a name with the reserved `native` prefix is
classified as an instance method bound to a native peer (`type = method`)
whose peer type is the parameter-name remainder unless a truthy
`@NativeClassQualifiedName` override supplies it; a declaration without
such a leading parameter is a free function (`type = function`). -/
theorem C2_dispatch_classification (ptrType : Str) (static : Bool)
    (jcn ncn : Option Str) (rt nm : Str) (p0 : PyParam) (rest : List PyParam) :
    (p0.datatype = ptrType → startswith p0.name "native".data = true →
      (mkNativeMethod static jcn ncn rt nm (p0 :: rest) ptrType).type = NativeType.method ∧
      (mkNativeMethod static jcn ncn rt nm (p0 :: rest) ptrType).p0Type =
        some (match ncn with
          | some c => if c.isEmpty then p0.name.drop 6 else c
          | none => p0.name.drop 6)) ∧
    (¬(p0.datatype = ptrType ∧ startswith p0.name "native".data = true) →
      (mkNativeMethod static jcn ncn rt nm (p0 :: rest) ptrType).type = NativeType.function ∧
      (mkNativeMethod static jcn ncn rt nm (p0 :: rest) ptrType).p0Type = none) ∧
    (mkNativeMethod static jcn ncn rt nm [] ptrType).type = NativeType.function := by
  refine ⟨?_, ?_, rfl⟩
  · intro h1 h2
    have hc : (p0.datatype == ptrType && startswith p0.name "native".data) = true := by
      simp [h1, h2]
    simp [mkNativeMethod, hc]
  · intro h
    have hc : (p0.datatype == ptrType && startswith p0.name "native".data) = false := by
      rcases Bool.eq_false_or_eq_true (p0.datatype == ptrType) with hb | hb
      · rcases Bool.eq_false_or_eq_true (startswith p0.name "native".data) with hs | hs
        · exact absurd ⟨by simpa using hb, hs⟩ h
        · simp [hs]
      · simp [hb]
    simp [mkNativeMethod, hc]

/-- Witness for C2: `native void nativeDestroy(long nativeFoo)` under the
64-bit pointer configuration and the same declaration with `int` under
the 32-bit configuration both classify as peer-bound methods with peer
type `Foo`; a declaration with an ordinary first parameter classifies as
a free function. -/
theorem C2_dispatch_classification_witness :
    ((mkNativeMethod false none none "void".data "Destroy".data
        (Parse "long nativeFoo".data) "long".data).type = NativeType.method ∧
      (mkNativeMethod false none none "void".data "Destroy".data
        (Parse "long nativeFoo".data) "long".data).p0Type = some "Foo".data) ∧
    ((mkNativeMethod false none none "void".data "Destroy".data
        (Parse "int nativeFoo".data) "int".data).type = NativeType.method ∧
      (mkNativeMethod false none none "void".data "Destroy".data
        (Parse "int nativeFoo".data) "int".data).p0Type = some "Foo".data) ∧
    ((mkNativeMethod false none none "void".data "Init".data
        (Parse "int count".data) "long".data).type = NativeType.function ∧
      (mkNativeMethod false none none "void".data "Init".data
        (Parse "int count".data) "long".data).p0Type = none) := by
  refine ⟨?_, ?_, ?_⟩
  · exact (C2_dispatch_classification "long".data false none none "void".data "Destroy".data
      ⟨"long".data, "nativeFoo".data⟩ []).1 (by decide) (by decide)
  · exact (C2_dispatch_classification "int".data false none none "void".data "Destroy".data
      ⟨"int".data, "nativeFoo".data⟩ []).1 (by decide) (by decide)
  · exact (C2_dispatch_classification "long".data false none none "void".data "Init".data
      ⟨"int".data, "count".data⟩ []).2.1 (by decide)

/-- The stored name of every extracted native method is the captured
declared name with the `native` substring removed (a lemma of
`mkNativeMethod`: the name field stores its argument unchanged). -/
theorem mkNativeMethod_name (static : Bool) (jcn ncn : Option Str) (rt nm : Str)
    (ps : List PyParam) (pt : Str) :
    (mkNativeMethod static jcn ncn rt nm ps pt).name = nm := by
  unfold mkNativeMethod
  cases ps with
  | nil => rfl
  | cons a l =>
    dsimp only
    split <;> rfl

/-- Claim C9: the stored name of every extracted native method is the
declared name with EVERY occurrence of the substring `native` removed
(`.replace('native', '')`), not only the leading reserved prefix; a name
with an interior occurrence, `nativeUpdateAlternative`, is stored as
`UpdateAlter` — different from `UpdateAlternative`, the name minus its
prefix — and the emitted stub symbol is built from that stripped name. -/
theorem C9_interior_native_removed :
    (∀ (ms : List NativeMatch) (ptrType : Str),
      (ExtractNatives ms ptrType).map (fun n => n.name) =
        ms.map (fun m => pyReplace "native".data [] m.nameGroup)) ∧
    pyReplace "native".data [] "nativeUpdateAlternative".data = "UpdateAlter".data ∧
    "UpdateAlter".data ≠ "nativeUpdateAlternative".data.drop 6 ∧
    (ExtractNatives
        [{ qualifiers := "private".data, javaClassName := none, nativeClassName := none,
           returnType := "void".data, nameGroup := "nativeUpdateAlternative".data,
           paramsGroup := [] }] "int".data).map
      (GetStubName "org/chromium/Foo".data) =
      ["Java_org_chromium_Foo_nativeUpdateAlter".data] := by
  refine ⟨?_, by decide, by decide, by decide⟩
  intro ms ptrType
  simp [ExtractNatives, mkNativeMethod_name]

/-- A context for the file `org/chromium/Foo.java` with no imports and an
empty implicit-import table. -/
def ctxFoo : JniCtx := SetFullyQualifiedClass [] "org/chromium/Foo".data

/-- The `@CalledByNative` match of `void f(int[] a)`. -/
def cbnMatchIntArr : CBNMatch :=
  { uncheckedGroup := [], annotation := none, prefixGroup := "public".data
    returnType := "void".data, name := "f".data, paramsGroup := "int[] a".data }

/-- The `@CalledByNative` match of `void f(int[][] a)`. -/
def cbnMatchIntArrArr : CBNMatch :=
  { uncheckedGroup := [], annotation := none, prefixGroup := "public".data
    returnType := "void".data, name := "f".data, paramsGroup := "int[][] a".data }

/-- Claim C3 (evaluation at the failing input): the two valid overloads
`void f(int[])` and `void f(int[][])` of one class form a group of size 2,
so both are mangled — and both receive the SAME identifier `fV_AI`,
because `GetMangledParam` maps the distinct descriptors `[I` (verbatim,
`[` to `A`) and `[[I` (scanned from position 1) to the same token `AI`.
Their parameter lists differ, so the overload mangler does not give two
same-named methods with different parameter lists distinct identifiers,
contradicting the claim and the function's own docstring. -/
theorem C3_overload_collision :
    (ExtractCalledByNatives ctxFoo [cbnMatchIntArr, cbnMatchIntArrArr] none).map
        (fun l => l.map (fun c => c.methodIdVarName)) =
      .ok [some "fV_AI".data, some "fV_AI".data] ∧
    (mkCBNFromMatch cbnMatchIntArr).javaClassName =
      (mkCBNFromMatch cbnMatchIntArrArr).javaClassName ∧
    (mkCBNFromMatch cbnMatchIntArr).name = (mkCBNFromMatch cbnMatchIntArrArr).name ∧
    (mkCBNFromMatch cbnMatchIntArr).params ≠ (mkCBNFromMatch cbnMatchIntArrArr).params ∧
    GetMangledParam "[I".data = GetMangledParam "[[I".data := by
  refine ⟨by decide, by decide, by decide, by decide, by decide⟩

/-- A context for the file `a/b/C.java`. -/
def ctxAbc : JniCtx := SetFullyQualifiedClass [] "a/b/C".data

/-- Claim C4 (evaluation at the failing input): parsing the malformed
parameter list `int a,` yields a second parameter with an empty type,
which the resolver's same-package fallback turns into the descriptor
`La/b/;`; its mangled token is `AB;`, so `GetMangledMethodName` builds
`fV_I_AB;` — an identifier containing `;` — and RETURNS it: the source's
`assert re.match(r'[0-9a-zA-Z_]+', mangled_name)` is unanchored, so it
only constrains the first character and passes.  The mangler thus
produces an identifier with a disallowed character without aborting. -/
theorem C4_assert_unanchored :
    Parse "int a,".data =
      [{ datatype := "int".data, name := "a".data }, { datatype := [], name := "p1".data }] ∧
    GetMangledMethodName ctxAbc "f".data (Parse "int a,".data) "void".data =
      .ok "fV_I_AB;".data ∧
    "fV_I_AB;".data.contains ';' = true ∧
    isIdentChar ';' = false ∧
    reMatchIdent "fV_I_AB;".data = true := by
  refine ⟨by decide, by decide, by decide, by decide, by decide⟩

/-- The source model used against claim C5: a file whose imports contain
the bare nested-class import `org.pkg.Outer.Inner` (binary form
`Lorg/pkg/Outer/Inner`: four path segments, uppercase-initial
second-to-last segment) plus one ordinary native method. -/
def srcNestedImport : SourceModel :=
  { importNames := ["org.pkg.Outer.Inner".data]
    innerNames := []
    additionalImportNames := []
    jniNamespace := []
    nativeMatches := [{ qualifiers := "private static".data, javaClassName := none,
                        nativeClassName := none, returnType := "void".data,
                        nameGroup := "nativeInit".data, paramsGroup := [] }]
    cbnMatches := []
    unmatchedCBNLines := none }

/-- Default options: 32-bit pointers, no explicit registration. -/
def optsDefault : Options :=
  { ptrType := "int".data, namespaceOpt := [], nativeExportsOptional := false
    optimizeGeneration := false }

/-- Counterexample to claim C5 as stated: this input file contains
a bare import of a class nested under another class, yet the import-processing
phase accepts it verbatim (recording `Lorg/pkg/Outer/Inner`), and the whole
run — including the resolution of every method — succeeds; nothing fails
at import-processing time. -/
theorem C5_counterexample :
    innerShapedImport ('L' :: replaceChar '.' '/' "org.pkg.Outer.Inner".data) = true ∧
    ExtractImportsAndInnerClasses (SetFullyQualifiedClass [] "org/chromium/Foo".data)
        srcNestedImport =
      .ok { ctxFoo with imports := ["Lorg/pkg/Outer/Inner".data] } ∧
    (JNIFromJavaSource [] "org/chromium/Foo".data srcNestedImport optsDefault).isOk = true := by
  refine ⟨by decide, by decide, by decide⟩

/-- Claim C5 as amended: a bare import of a nested class is accepted
at import-processing time (no check of any kind is applied to the
`import` directives there), and the rejection happens later, at type-resolution
time — when a type name matching that import by trailing segment is
resolved, `JavaToJni` raises the inner-class-import error. -/
theorem C5_amended (ctx : JniCtx) (param q : Str)
    (hA : List.isSuffixOf "[]".data param = false)
    (hG : param.contains '<' = false)
    (hPod : podParamMap param = none)
    (hSlash : param.contains '/' = false)
    (hQual : (objectParamList ++ ctx.fullyQualifiedClass :: ctx.innerClasses).find?
        (qualifiedMatches param) = none)
    (hImp : ctx.imports.find? (fun q' => endswith q' ('/' :: param)) = some q)
    (hInner : innerShapedImport q = true) :
    JavaToJni ctx param = .error (.syntaxError (innerImportMsg q param)) := by
  have hArr : stripArrays param = ([], param) := stripArrays_eq_self param hA
  have hGen : stripGeneric param = param := stripGeneric_eq_self param hG
  simp only [JavaToJni]
  rw [hArr]
  simp only [hGen]
  simp only [javaToJniCore, hPod, hSlash, hQual, hImp, hInner]
  simp

/-- Witness for the amended C5: under the context produced for
`srcNestedImport`, resolving the unqualified name `Inner` fails with the
inner-class-import error. -/
theorem C5_amended_witness :
    JavaToJni { ctxFoo with imports := ["Lorg/pkg/Outer/Inner".data] } "Inner".data =
      .error (.syntaxError (innerImportMsg "Lorg/pkg/Outer/Inner".data "Inner".data)) :=
  C5_amended { ctxFoo with imports := ["Lorg/pkg/Outer/Inner".data] } "Inner".data
    "Lorg/pkg/Outer/Inner".data (by decide) (by decide) (by decide) (by decide)
    (by decide) (by decide) (by decide)

/-- Claim C6: an unqualified type name that matches no resolution rule
before the ambiguity guard but appears in the implicit-import table fails
with the fatal ambiguity error; and after appending the corresponding
explicit import (the table entry's binary name), the same name resolves
successfully to that imported binary name as a reference descriptor. -/
theorem C6_implicit_ambiguity (ctx : JniCtx) (param entry : Str)
    (hA : List.isSuffixOf "[]".data param = false)
    (hG : param.contains '<' = false)
    (hPod : podParamMap param = none)
    (hSlash : param.contains '/' = false)
    (hQual : (objectParamList ++ ctx.fullyQualifiedClass :: ctx.innerClasses).find?
        (qualifiedMatches param) = none)
    (hImp : ctx.imports.find? (fun q' => endswith q' ('/' :: param)) = none)
    (hDot : param.contains '.' = false)
    (hImplicit : checkImplicit ctx.implicitImports param = some entry)
    (hNotInner : innerShapedImport ('L' :: replaceChar '.' '/' (cleanImplicit entry)) = false) :
    JavaToJni ctx param = .error (.syntaxError (ambiguousMsg param (cleanImplicit entry))) ∧
    JavaToJni { ctx with imports :=
        ctx.imports ++ ['L' :: replaceChar '.' '/' (cleanImplicit entry)] } param =
      .ok ('L' :: replaceChar '.' '/' (cleanImplicit entry) ++ [';']) := by
  have hArr : stripArrays param = ([], param) := stripArrays_eq_self param hA
  have hGen : stripGeneric param = param := stripGeneric_eq_self param hG
  constructor
  · simp only [JavaToJni]
    rw [hArr]
    simp only [hGen]
    simp only [javaToJniCore, hPod, hSlash, hImp, hDot, hImplicit]
    rw [hQual]
    simp
  · have hImplicit' : ctx.implicitImports.find?
        (fun ii => endswith (cleanImplicit ii) ('.' :: param)) = some entry := hImplicit
    have hMatch : endswith (cleanImplicit entry) ('.' :: param) = true := by
      simpa using List.find?_some hImplicit'
    obtain ⟨u, hu⟩ := endswith_decomp _ _ hMatch
    have hPar : replaceChar '.' '/' param = param := replaceChar_eq_self '.' '/' param hDot
    have hImpForm : 'L' :: replaceChar '.' '/' (cleanImplicit entry) =
        ('L' :: replaceChar '.' '/' u) ++ '/' :: param := by
      rw [hu, replaceChar_append]
      have h1 : replaceChar '.' '/' ('.' :: param) = '/' :: param := by
        have h2 : replaceChar '.' '/' ('.' :: param) = '/' :: replaceChar '.' '/' param := rfl
        rw [h2, hPar]
      rw [h1]
      rfl
    have hFound : (ctx.imports ++ ['L' :: replaceChar '.' '/' (cleanImplicit entry)]).find?
        (fun q' => endswith q' ('/' :: param)) =
        some ('L' :: replaceChar '.' '/' (cleanImplicit entry)) := by
      rw [List.find?_append, hImp]
      simp only [Option.none_or]
      have hp : endswith ('L' :: replaceChar '.' '/' (cleanImplicit entry)) ('/' :: param)
          = true := by
        rw [hImpForm]
        exact endswith_append _ _
      simp [List.find?_cons, hp]
    simp only [JavaToJni]
    rw [hArr]
    simp only [hGen]
    simp only [javaToJniCore, hPod, hSlash]
    rw [hQual]
    simp only []
    rw [hFound]
    simp only []
    rw [hNotInner]
    simp

/-- A context whose implicit-import table lists `android.view.View` (one
line of `android_jar.classes`, newline included). -/
def ctxView : JniCtx :=
  SetFullyQualifiedClass ["android/view/View.class\n".data] "org/chromium/Foo".data

/-- Witness for C6: `View` is implicitly visible but not imported, so it
fails with the ambiguity error; with `import android.view.View;` added it
resolves to `Landroid/view/View;`. -/
theorem C6_implicit_ambiguity_witness :
    JavaToJni ctxView "View".data =
      .error (.syntaxError (ambiguousMsg "View".data
        (cleanImplicit "android/view/View.class\n".data))) ∧
    JavaToJni { ctxView with imports := ctxView.imports ++
        ['L' :: replaceChar '.' '/' (cleanImplicit "android/view/View.class\n".data)] }
        "View".data =
      .ok ('L' :: replaceChar '.' '/' (cleanImplicit "android/view/View.class\n".data) ++ [';']) :=
  C6_implicit_ambiguity ctxView "View".data "android/view/View.class\n".data
    (by decide) (by decide) (by decide) (by decide) (by decide) (by decide) (by decide)
    (by decide) (by decide)

/-- Claim C7: in the emitted class-path section, the dict of referenced
classes has duplicate-free keys, the constants and the handles are each
emitted exactly once per key, and every class referenced by a
called-by-native declaration (and, under explicit registration, by a
native declaration) occurs among the keys — so each distinct referenced
class gets exactly one class-path constant and one cached class handle. -/
theorem C7_one_constant_and_handle_per_class (g : Generator) :
    (dictKeys (classPathAllClasses g)).Nodup ∧
    classHandles g = dictKeys (classPathAllClasses g) ∧
    (classPathConstants g).map Prod.fst = dictKeys (classPathAllClasses g) ∧
    (∀ c ∈ g.calledByNatives,
      (uniqueClassEntry g.className g.fullyQualifiedClass (some c.javaClassName)).1
        ∈ dictKeys (classPathAllClasses g)) ∧
    (g.nativeExportsOptional = true → ∀ n ∈ g.natives,
      (uniqueClassEntry g.className g.fullyQualifiedClass n.javaClassName).1
        ∈ dictKeys (classPathAllClasses g)) := by
  refine ⟨?_, rfl, rfl, ?_, ?_⟩
  · unfold classPathAllClasses
    by_cases hopt : g.nativeExportsOptional
    · simp only [hopt, if_true]
      exact nodup_dictKeys_dictUpdate _ _ (nodup_dictKeys_GetUniqueClasses _ _ _)
    · simp only [hopt, if_false]
      exact nodup_dictKeys_GetUniqueClasses _ _ _
  · intro c hc
    have hmem : some c.javaClassName ∈ g.calledByNatives.map (fun x => some x.javaClassName) :=
      List.mem_map_of_mem _ hc
    have hbase := mem_dictKeys_GetUniqueClasses g.className g.fullyQualifiedClass
      (g.calledByNatives.map (fun x => some x.javaClassName)) (some c.javaClassName) hmem
    unfold classPathAllClasses
    by_cases hopt : g.nativeExportsOptional
    · simp only [hopt, if_true]
      exact mem_dictKeys_dictUpdate_left _ _ _ hbase
    · simp only [hopt, if_false]
      exact hbase
  · intro hopt n hn
    have hmem : n.javaClassName ∈ g.natives.map (fun x => x.javaClassName) :=
      List.mem_map_of_mem _ hn
    have hother := mem_dictKeys_GetUniqueClasses g.className g.fullyQualifiedClass
      (g.natives.map (fun x => x.javaClassName)) n.javaClassName hmem
    unfold classPathAllClasses
    simp only [hopt, if_true]
    exact mem_dictKeys_dictUpdate_right _ _ _ hother

/-- A small generator referencing the same class from two called-by-native
methods. -/
def genTwice : Generator :=
  { namespaceUsed := []
    fullyQualifiedClass := "org/chromium/Foo".data
    className := "Foo".data
    natives := []
    calledByNatives := [mkCBNFromMatch cbnMatchIntArr, mkCBNFromMatch cbnMatchIntArrArr]
    constantFields := []
    nativeExportsOptional := false }

/-- Witness for C7: with the same class referenced by two declarations,
the emitted keys are still duplicate-free and the class occurs among
them. -/
theorem C7_one_constant_and_handle_per_class_witness :
    (dictKeys (classPathAllClasses genTwice)).Nodup ∧
    (uniqueClassEntry genTwice.className genTwice.fullyQualifiedClass
        (some (mkCBNFromMatch cbnMatchIntArr).javaClassName)).1
      ∈ dictKeys (classPathAllClasses genTwice) :=
  ⟨(C7_one_constant_and_handle_per_class genTwice).1,
   (C7_one_constant_and_handle_per_class genTwice).2.2.2.1
     (mkCBNFromMatch cbnMatchIntArr) (by decide)⟩

/-- Claim C8: whenever the pipeline (extraction, resolution, content
construction) fails, `GenerateJNIHeader` exits with status 1 and the file
system is unchanged — no output file is created and no partial content is
written. -/
theorem C8_no_output_on_failure (implicits : List Str) (fqc : Str) (src : SourceModel)
    (options : Options) (outputFile : Option Str) (fs : FileSystem) (e : JniError)
    (h : JNIFromJavaSource implicits fqc src options = .error e) :
    GenerateJNIHeader (JNIFromJavaSource implicits fqc src options) outputFile
      options.optimizeGeneration fs = (fs, 1) := by
  rw [h]
  rfl

/-- A source model with no JNI method at all. -/
def srcEmpty : SourceModel :=
  { importNames := []
    innerNames := []
    additionalImportNames := []
    jniNamespace := []
    nativeMatches := []
    cbnMatches := []
    unmatchedCBNLines := none }

/-- Witness for C8: on an input with no JNI methods the pipeline fails,
and generation leaves a pre-existing file system untouched and exits 1. -/
theorem C8_no_output_on_failure_witness :
    GenerateJNIHeader (JNIFromJavaSource [] "org/chromium/Foo".data srcEmpty optsDefault)
        (some "Foo_jni.h".data) optsDefault.optimizeGeneration
        [("Old_jni.h".data, "old".data)] =
      ([("Old_jni.h".data, "old".data)], 1) :=
  C8_no_output_on_failure [] "org/chromium/Foo".data srcEmpty optsDefault
    (some "Foo_jni.h".data) [("Old_jni.h".data, "old".data)]
    (.syntaxError (noMethodsMsg "org/chromium/Foo".data)) (by decide)

/-- Claim C10: when extraction (which itself succeeded) found no native
method and no called-by-native method, the pipeline fails with the fatal
`SyntaxError` whose message names the fully qualified class, instead of
producing an empty header. -/
theorem C10_no_methods_is_fatal (implicits : List Str) (fqc : Str) (src : SourceModel)
    (options : Options) (ctx : JniCtx)
    (hctx : ExtractImportsAndInnerClasses (SetFullyQualifiedClass implicits fqc) src = .ok ctx)
    (h1 : src.nativeMatches = [])
    (h2 : src.cbnMatches = [])
    (h3 : src.unmatchedCBNLines = none) :
    JNIFromJavaSource implicits fqc src options = .error (.syntaxError (noMethodsMsg fqc)) ∧
    hasSubstr fqc (noMethodsMsg fqc) = true := by
  constructor
  · obtain ⟨imps, inns, adds, ns, nm, cm, ul⟩ := src
    simp only at h1 h2 h3
    subst h1
    subst h2
    subst h3
    unfold JNIFromJavaSource
    dsimp only
    rw [hctx]
    rfl
  · have h := hasSubstr_append_mid fqc "Unable to find any JNI methods for ".data ".".data
    simpa [noMethodsMsg] using h

/-- Witness for C10: the empty source model for `org/chromium/Foo`. -/
theorem C10_no_methods_is_fatal_witness :
    JNIFromJavaSource [] "org/chromium/Foo".data srcEmpty optsDefault =
      .error (.syntaxError (noMethodsMsg "org/chromium/Foo".data)) ∧
    hasSubstr "org/chromium/Foo".data (noMethodsMsg "org/chromium/Foo".data) = true :=
  C10_no_methods_is_fatal [] "org/chromium/Foo".data srcEmpty optsDefault
    (SetFullyQualifiedClass [] "org/chromium/Foo".data) (by decide) rfl rfl rfl
